import Mathlib

/-
Formal model of the ACP web chat client's per-session protocol state
machine, shallowly embedded from src/web-ui/src/App.tsx (class WsManager
and the App-level permission handlers) and the shared type declarations.

Modelling conventions:
  * `makeId()` (timestamp + random suffix) is modelled as a fresh counter
    `nextId`; the only property the code relies on is freshness of ids.
  * `Date.now()` timestamps are modelled as the constant 0 (no claim
    mentions time).
  * A WebSocket object is modelled by an integer handle (`sockId`) whose
    `readyState` lives in the `readyStates` association list; frames handed
    to an OPEN socket are appended to `sentLog`.  Per browser semantics a
    `send` on a socket that is not OPEN delivers nothing.
  * JS `Map` objects (`sockets`, `thinkingIds`, `streamingIds`) are
    association lists with `alGet` / `alSet` / `alErase`.
  * The JS truthiness idiom `a || b` on strings (empty string is falsy)
    is `jsOrS`.
-/

inductive MessageRole
  | user
  | assistant
  | tool
  | system
deriving DecidableEq, Repr

inductive PermStatus
  | pending
  | allowed
  | denied
  | cancelled
deriving DecidableEq, Repr

structure ToolCallInfo where
  title : String
  input : Option String
deriving DecidableEq, Repr

structure ToolResultInfo where
  status : PermStatus
  output : Option String
deriving DecidableEq, Repr

structure ChatMessage where
  id : Nat
  role : MessageRole
  content : String
  timestamp : Nat
  toolCall : Option ToolCallInfo
  toolResult : Option ToolResultInfo
  isThinking : Bool
deriving DecidableEq, Repr

inductive SessionStatus
  | disconnected
  | connecting
  | connected
  | error
deriving DecidableEq, Repr

structure AgentInfo where
  name : String
  version : String
deriving DecidableEq, Repr

structure Session where
  id : String
  name : String
  wsUrl : String
  token : String
  messages : List ChatMessage
  status : SessionStatus
  agentInfo : Option AgentInfo
  sessionId : Option String
  createdAt : Nat
deriving DecidableEq, Repr

structure PermissionOptionInfo where
  title : String
  description : Option String
deriving DecidableEq, Repr

structure PermissionRequest where
  requestId : String
  sessionId : String
  options : List PermissionOptionInfo
  toolCall : ToolCallInfo
deriving DecidableEq, Repr

inductive PermissionOutcome
  | allow
  | deny
deriving DecidableEq, Repr

inductive OutFrame
  | connectCmd
  | newSessionCmd
  | promptCmd (text : String)
  | cancelCmd
  | permissionResponse (requestId : String) (outcome : PermissionOutcome)
  | disconnectCmd
deriving DecidableEq, Repr

structure SessionUpdate where
  type : String
  delta : Option String
  text : Option String
deriving DecidableEq, Repr

inductive InMsg
  | statusMsg (connected : Bool) (agentInfo : Option AgentInfo)
  | sessionCreated (sessionId : String)
  | sessionUpdateMsg (updates : List SessionUpdate)
  | permissionRequestMsg (p : PermissionRequest)
  | promptComplete
  | errorMsg (message : String)
  | unknownMsg
deriving DecidableEq, Repr

structure PendingPermission where
  request : PermissionRequest
  sockId : Nat
deriving DecidableEq, Repr

structure AppState where
  sessions : List Session
  pendingPermission : Option PendingPermission
  sockets : List (String × Nat)
  readyStates : List (Nat × Nat)
  thinkingIds : List (String × Nat)
  streamingIds : List (String × Nat)
  sentLog : List (Nat × OutFrame)
  nextId : Nat
deriving DecidableEq, Repr

/-- WebSocket.CONNECTING -/
def wsConnecting : Nat := 0

/-- WebSocket.OPEN -/
def wsOpen : Nat := 1

/-- WebSocket.CLOSING -/
def wsClosing : Nat := 2

/-- WebSocket.CLOSED -/
def wsClosed : Nat := 3

def alGet {κ β : Type} [DecidableEq κ] : List (κ × β) → κ → Option β
  | [], _ => none
  | (a, b) :: t, k => if a = k then some b else alGet t k

def alSet {κ β : Type} [DecidableEq κ] : List (κ × β) → κ → β → List (κ × β)
  | [], k, v => [(k, v)]
  | (a, b) :: t, k, v => if a = k then (k, v) :: t else (a, b) :: alSet t k v

def alErase {κ β : Type} [DecidableEq κ] : List (κ × β) → κ → List (κ × β)
  | [], _ => []
  | (a, b) :: t, k => if a = k then alErase t k else (a, b) :: alErase t k

/-- JS `a || b` for an optional string slot: empty string is falsy. -/
def jsOrS (a : Option String) (b : String) : String :=
  match a with
  | some s => if s = "" then b else s
  | none => b

/-- `setSession` callback: map a transform over the session with that id. -/
def setSessionList (sid : String) (f : Session → Session) (ss : List Session) : List Session :=
  ss.map fun s => if s.id = sid then f s else s

/-- `addMessage` callback: append a message to the session with that id. -/
def addMessageList (sid : String) (m : ChatMessage) (ss : List Session) : List Session :=
  ss.map fun s => if s.id = sid then { s with messages := s.messages ++ [m] } else s

def AppState.setSession (st : AppState) (sid : String) (f : Session → Session) : AppState :=
  { st with sessions := setSessionList sid f st.sessions }

def AppState.addMessage (st : AppState) (sid : String) (m : ChatMessage) : AppState :=
  { st with sessions := addMessageList sid m st.sessions }

/-- `ws.send(frame)`: delivered (logged) only when the socket is OPEN. -/
def sockSend (st : AppState) (sockId : Nat) (f : OutFrame) : AppState :=
  if alGet st.readyStates sockId = some wsOpen then
    { st with sentLog := st.sentLog ++ [(sockId, f)] }
  else st

def findSessionIn (sid : String) : List Session → Option Session
  | [] => none
  | s :: t => if s.id = sid then some s else findSessionIn sid t

/-- `sessions.find((s) => s.id === id)` -/
def findSession (st : AppState) (sid : String) : Option Session :=
  findSessionIn sid st.sessions

def connectFresh (st : AppState) (sess : Session) : AppState :=
  let st1 := st.setSession sess.id fun s => { s with status := .connecting }
  let sid := st1.nextId
  { st1 with
    sockets := alSet st1.sockets sess.id sid
    readyStates := alSet st1.readyStates sid wsConnecting
    nextId := st1.nextId + 1 }

/-- WsManager.connect: no-op when an existing socket has readyState ≤ OPEN. -/
def connect (st : AppState) (sess : Session) : AppState :=
  match alGet st.sockets sess.id with
  | some sid =>
    match alGet st.readyStates sid with
    | some rs => if rs ≤ wsOpen then st else connectFresh st sess
    | none => connectFresh st sess
  | none => connectFresh st sess

/-- The ws.onopen handler firing on a socket: state becomes OPEN (browser),
then the handler sends the `connect` command. -/
def onopenEv (st : AppState) (sockId : Nat) : AppState :=
  let st1 := { st with readyStates := alSet st.readyStates sockId wsOpen }
  sockSend st1 sockId .connectCmd

/-- The ws.onerror handler: session status becomes `error` (nothing else). -/
def onerrorEv (st : AppState) (localId : String) : AppState :=
  st.setSession localId fun s => { s with status := .error }

/-- The ws.onclose handler: socket is CLOSED (browser), the handler deletes
the map entry and drives the session to `disconnected`, clearing the remote
session id. -/
def oncloseEv (st : AppState) (localId : String) (sockId : Nat) : AppState :=
  let st1 := { st with readyStates := alSet st.readyStates sockId wsClosed }
  let st2 := { st1 with sockets := alErase st1.sockets localId }
  st2.setSession localId fun s => { s with status := .disconnected, sessionId := none }

/-- WsManager.disconnect: best-effort `disconnect` frame (failures swallowed,
and a non-OPEN socket delivers nothing), then `ws.close()` (CLOSING). -/
def disconnect (st : AppState) (localId : String) : AppState :=
  match alGet st.sockets localId with
  | none => st
  | some sid =>
    let st1 := sockSend st sid .disconnectCmd
    { st1 with readyStates := alSet st1.readyStates sid wsClosing }

/-- WsManager.send: false unless the socket exists and is OPEN. -/
def send (st : AppState) (localId : String) (f : OutFrame) : Bool × AppState :=
  match alGet st.sockets localId with
  | none => (false, st)
  | some sid =>
    if alGet st.readyStates sid = some wsOpen then
      (true, { st with sentLog := st.sentLog ++ [(sid, f)] })
    else (false, st)

/-- WsManager.isOpen -/
def isOpen (st : AppState) (localId : String) : Bool :=
  match alGet st.sockets localId with
  | none => false
  | some sid => decide (alGet st.readyStates sid = some wsOpen)

/-- One iteration of the `for (const update of updates)` loop body of
WsManager.handleUpdates. -/
def handleUpdate1 (st : AppState) (localId : String) (u : SessionUpdate) : AppState :=
  if u.type = "text_delta" ∨ u.type = "text" then
    let delta := jsOrS u.delta (jsOrS u.text "")
    if delta = "" then st
    else
      let st1 :=
        match alGet st.thinkingIds localId with
        | some thinkId =>
          let sta := st.setSession localId fun s =>
            { s with messages := s.messages.filter fun m => m.id ≠ thinkId }
          { sta with thinkingIds := alErase sta.thinkingIds localId }
        | none => st
      match alGet st1.streamingIds localId with
      | some streamId =>
        st1.setSession localId fun s =>
          { s with messages := s.messages.map fun m =>
              if m.id = streamId then { m with content := m.content ++ delta } else m }
      | none =>
        let mid := st1.nextId
        let st2 := { st1 with
          streamingIds := alSet st1.streamingIds localId mid
          nextId := st1.nextId + 1 }
        st2.addMessage localId
          { id := mid, role := .assistant, content := delta, timestamp := 0
            toolCall := none, toolResult := none, isThinking := false }
  else if u.type = "thinking_start" then
    match alGet st.thinkingIds localId with
    | some _ => st
    | none =>
      let mid := st.nextId
      let st2 := { st with
        thinkingIds := alSet st.thinkingIds localId mid
        nextId := st.nextId + 1 }
      st2.addMessage localId
        { id := mid, role := .assistant, content := "", timestamp := 0
          toolCall := none, toolResult := none, isThinking := true }
  else st

def handleUpdates (st : AppState) (localId : String) (updates : List SessionUpdate) : AppState :=
  updates.foldl (fun s u => handleUpdate1 s localId u) st

/-- WsManager.handleMessage, dispatching an inbound frame received on the
socket `sockId` for the local session `localId`. -/
def handleMessage (st : AppState) (localId : String) (msg : InMsg) (sockId : Nat) : AppState :=
  match msg with
  | .statusMsg connected agentInfo =>
    if connected then
      let st1 := st.setSession localId fun s =>
        { s with status := .connected, agentInfo := agentInfo }
      sockSend st1 sockId .newSessionCmd
    else
      st.setSession localId fun s => { s with status := .disconnected, sessionId := none }
  | .sessionCreated sid =>
    st.setSession localId fun s => { s with sessionId := some sid }
  | .sessionUpdateMsg updates => handleUpdates st localId updates
  | .permissionRequestMsg p =>
    let st1 := { st with pendingPermission := some ⟨p, sockId⟩ }
    let mid := st1.nextId
    let st2 := { st1 with nextId := st1.nextId + 1 }
    st2.addMessage localId
      { id := mid, role := .tool
        content := jsOrS (some p.toolCall.title) "Tool call"
        timestamp := 0
        toolCall := some { title := jsOrS (some p.toolCall.title) "Permission Required"
                           input := p.toolCall.input }
        toolResult := some { status := .pending, output := none }
        isThinking := false }
  | .promptComplete =>
    let st1 :=
      match alGet st.thinkingIds localId with
      | some thinkId =>
        let sta := st.setSession localId fun s =>
          { s with messages := s.messages.filter fun m => m.id ≠ thinkId }
        { sta with thinkingIds := alErase sta.thinkingIds localId }
      | none => st
    { st1 with streamingIds := alErase st1.streamingIds localId }
  | .errorMsg message =>
    let mid := st.nextId
    let st1 := { st with nextId := st.nextId + 1 }
    st1.addMessage localId
      { id := mid, role := .system, content := "Error: " ++ message, timestamp := 0
        toolCall := none, toolResult := none, isThinking := false }
  | .unknownMsg => st

/-- The per-message transform of handlePermissionAllow: pending AND matching
title (JS optional chaining: a message without toolCall never matches). -/
def allowUpd (title : String) (m : ChatMessage) : ChatMessage :=
  match m.toolResult, m.toolCall with
  | some tr, some tc =>
    if tr.status = .pending ∧ tc.title = title then
      { m with toolResult := some { tr with status := .allowed } }
    else m
  | _, _ => m

/-- The per-message transform of handlePermissionDeny: every pending message. -/
def denyUpd (m : ChatMessage) : ChatMessage :=
  match m.toolResult with
  | some tr =>
    if tr.status = .pending then { m with toolResult := some { tr with status := .denied } }
    else m
  | none => m

def handlePermissionAllow (st : AppState) : AppState :=
  match st.pendingPermission with
  | none => st
  | some pp =>
    let st1 := sockSend st pp.sockId (.permissionResponse pp.request.requestId .allow)
    { st1 with
      sessions := st1.sessions.map fun s =>
        { s with messages := s.messages.map (allowUpd pp.request.toolCall.title) }
      pendingPermission := none }

def handlePermissionDeny (st : AppState) : AppState :=
  match st.pendingPermission with
  | none => st
  | some pp =>
    let st1 := sockSend st pp.sockId (.permissionResponse pp.request.requestId .deny)
    { st1 with
      sessions := st1.sessions.map fun s => { s with messages := s.messages.map denyUpd }
      pendingPermission := none }

/-- showPermission: unconditionally replace the displayed request. -/
def showPermission (st : AppState) (p : PermissionRequest) (sockId : Nat) : AppState :=
  { st with pendingPermission := some ⟨p, sockId⟩ }

def concatAll : List String → String
  | [] => ""
  | d :: ds => d ++ concatAll ds

/-- A `text_delta` session update carrying `d`. -/
def deltaUpd (d : String) : SessionUpdate := ⟨"text_delta", some d, none⟩

/-- A `thinking_start` session update. -/
def thinkingStartUpd : SessionUpdate := ⟨"thinking_start", none, none⟩

/-- The assistant message created when a stream begins with content `c`. -/
def streamMsg (k : Nat) (c : String) : ChatMessage :=
  ⟨k, .assistant, c, 0, none, none, false⟩

/-- The thinking placeholder message. -/
def thinkMsg (k : Nat) : ChatMessage :=
  ⟨k, .assistant, "", 0, none, none, true⟩

/-- The system message appended for an inbound `error` frame. -/
def errMsgOf (k : Nat) (message : String) : ChatMessage :=
  ⟨k, .system, "Error: " ++ message, 0, none, none, false⟩

/-- A message currently awaiting a permission decision. -/
def isPendingMsg (m : ChatMessage) : Prop :=
  ∃ tr, m.toolResult = some tr ∧ tr.status = .pending

/-- Specification-level relation between a message before and after a deny
resolution: every pending message is flipped to denied, all others are
untouched. -/
def denyRel (m m' : ChatMessage) : Prop :=
  (∀ tr, m.toolResult = some tr → tr.status = .pending →
      m' = { m with toolResult := some { tr with status := .denied } }) ∧
  (¬ isPendingMsg m → m' = m)

/-- Specification-level relation between a message before and after an allow
resolution for a request whose tool title is `title`: a pending message whose
toolCall title equals `title` is flipped to allowed, all others untouched. -/
def allowRel (title : String) (m m' : ChatMessage) : Prop :=
  (∀ tr tc, m.toolResult = some tr → tr.status = .pending → m.toolCall = some tc →
      tc.title = title → m' = { m with toolResult := some { tr with status := .allowed } }) ∧
  (¬ (isPendingMsg m ∧ ∃ tc, m.toolCall = some tc ∧ tc.title = title) → m' = m)

/-- Lift a per-message relation to sessions: identity fields are preserved
and the message lists are pointwise related. -/
def sessRel (r : ChatMessage → ChatMessage → Prop) (s s' : Session) : Prop :=
  s'.id = s.id ∧ s'.status = s.status ∧ s'.sessionId = s.sessionId ∧
  List.Forall₂ r s.messages s'.messages

/- ── Concrete fixture states used by counterexamples and witnesses ── -/

/-- A connected session that already holds a remote session id. -/
def sessA : Session :=
  { id := "s1", name := "Session 1", wsUrl := "ws://h:9315/ws", token := ""
    messages := [], status := .connected, agentInfo := none
    sessionId := some "r1", createdAt := 0 }

def stA : AppState :=
  { sessions := [sessA], pendingPermission := none, sockets := [("s1", 5)]
    readyStates := [(5, 1)], thinkingIds := [], streamingIds := []
    sentLog := [], nextId := 10 }

/-- The assistant message currently streaming in the C4 counterexample. -/
def m0C4 : ChatMessage := ⟨0, .assistant, "Hi", 0, none, none, false⟩

def sessC4 : Session := { sessA with messages := [m0C4] }

/-- A state whose aggregator is in the Streaming state for session s1
(streaming message id 0, no thinking placeholder). -/
def stC4 : AppState :=
  { sessions := [sessC4], pendingPermission := none, sockets := [("s1", 5)]
    readyStates := [(5, 1)], thinkingIds := [], streamingIds := [("s1", 0)]
    sentLog := [], nextId := 1 }

/-- The displayed permission request of the C2 counterexample. -/
def reqC2 : PermissionRequest :=
  { requestId := "rq1", sessionId := "s1", options := []
    toolCall := { title := "Read file", input := none } }

/-- The pending tool message created for `reqC2`. -/
def mReq : ChatMessage :=
  ⟨7, .tool, "Read file", 0, some ⟨"Read file", none⟩, some ⟨.pending, none⟩, false⟩

/-- An unrelated pending tool message (different title, not created for
`reqC2`). -/
def mOther : ChatMessage :=
  ⟨8, .tool, "Write file", 0, some ⟨"Write file", none⟩, some ⟨.pending, none⟩, false⟩

def sessC2 : Session := { sessA with messages := [mReq, mOther] }

def stC2 : AppState :=
  { sessions := [sessC2], pendingPermission := some ⟨reqC2, 5⟩, sockets := [("s1", 5)]
    readyStates := [(5, 1)], thinkingIds := [], streamingIds := []
    sentLog := [], nextId := 9 }

/-- A state whose aggregator is Idle for session s1. -/
def stIdle : AppState :=
  { sessions := [sessA], pendingPermission := none, sockets := [("s1", 5)]
    readyStates := [(5, 1)], thinkingIds := [], streamingIds := []
    sentLog := [], nextId := 3 }

/-- A state whose socket for s1 is CLOSED (send must fail). -/
def stClosed : AppState :=
  { sessions := [sessA], pendingPermission := none, sockets := [("s1", 5)]
    readyStates := [(5, 3)], thinkingIds := [], streamingIds := []
    sentLog := [], nextId := 3 }

/- ── Association list lemmas ── -/

theorem alGet_alSet_self {κ β : Type} [DecidableEq κ] (l : List (κ × β)) (k : κ) (v : β) :
    alGet (alSet l k v) k = some v := by
  induction l with
  | nil => simp [alGet, alSet]
  | cons h t ih =>
    obtain ⟨a, b⟩ := h
    by_cases hak : a = k
    · simp [alSet, hak, alGet]
    · simp [alSet, hak, alGet, ih]

theorem alGet_alErase_self {κ β : Type} [DecidableEq κ] (l : List (κ × β)) (k : κ) :
    alGet (alErase l k) k = none := by
  induction l with
  | nil => rfl
  | cons h t ih =>
    obtain ⟨a, b⟩ := h
    by_cases hak : a = k
    · simp [alErase, hak, ih]
    · simp [alErase, hak, alGet, ih]

/- ── findSession lemmas ── -/

theorem findSessionIn_id (sid : String) (ss : List Session) (s : Session)
    (h : findSessionIn sid ss = some s) : s.id = sid := by
  induction ss with
  | nil => simp [findSessionIn] at h
  | cons a t ih =>
    by_cases ha : a.id = sid
    · rw [findSessionIn, if_pos ha] at h
      cases h
      exact ha
    · rw [findSessionIn, if_neg ha] at h
      exact ih h

theorem findSessionIn_map_of_id (g : Session → Session) (hg : ∀ s, (g s).id = s.id)
    (sid : String) (ss : List Session) :
    findSessionIn sid (ss.map g) = (findSessionIn sid ss).map g := by
  induction ss with
  | nil => rfl
  | cons a t ih =>
    simp only [List.map_cons, findSessionIn, hg a]
    by_cases ha : a.id = sid
    · simp [ha]
    · simp [ha, ih]

theorem findSessionIn_setSessionList (ss : List Session) (sid : String) (f : Session → Session)
    (hf : ∀ s, (f s).id = s.id) :
    findSessionIn sid (setSessionList sid f ss) = (findSessionIn sid ss).map f := by
  unfold setSessionList
  rw [findSessionIn_map_of_id]
  · cases hfind : findSessionIn sid ss with
    | none => rfl
    | some s => simp [findSessionIn_id sid ss s hfind]
  · intro s
    by_cases hs : s.id = sid
    · simp [hs, hf]
    · simp [hs]

theorem findSession_setSession (st : AppState) (sid : String) (f : Session → Session)
    (hf : ∀ s, (f s).id = s.id) :
    findSession (st.setSession sid f) sid = (findSession st sid).map f := by
  unfold findSession AppState.setSession
  exact findSessionIn_setSessionList st.sessions sid f hf

theorem addMessageList_eq_set (sid : String) (m : ChatMessage) (ss : List Session) :
    addMessageList sid m ss =
      setSessionList sid (fun s => { s with messages := s.messages ++ [m] }) ss := rfl

theorem findSession_addMessage (st : AppState) (sid : String) (m : ChatMessage) :
    findSession (st.addMessage sid m) sid =
      (findSession st sid).map fun s => { s with messages := s.messages ++ [m] } := by
  unfold findSession AppState.addMessage
  rw [addMessageList_eq_set]
  exact findSessionIn_setSessionList st.sessions sid _ (fun s => rfl)

theorem setSessionList_mem_cases (ss : List Session) (sid : String) (f : Session → Session)
    (s' : Session) (hs' : s' ∈ setSessionList sid f ss) :
    (∃ a, a ∈ ss ∧ a.id = sid ∧ s' = f a) ∨ (s' ∈ ss ∧ s'.id ≠ sid) := by
  unfold setSessionList at hs'
  obtain ⟨a, ha, heq⟩ := List.mem_map.mp hs'
  by_cases hid : a.id = sid
  · left
    exact ⟨a, ha, hid, by rw [← heq, if_pos hid]⟩
  · right
    rw [← heq, if_neg hid]
    exact ⟨ha, hid⟩

theorem mem_setSessionList_of_ne (ss : List Session) (sid : String) (f : Session → Session)
    (hf : ∀ s, (f s).id = s.id) (s' : Session) (hs' : s' ∈ setSessionList sid f ss)
    (hne : s'.id ≠ sid) : s' ∈ ss := by
  rcases setSessionList_mem_cases ss sid f s' hs' with ⟨a, ha, hid, heq⟩ | ⟨hmem, _⟩
  · exact absurd (by rw [heq, hf a, hid]) hne
  · exact hmem

/- ── Forall₂ helper ── -/

theorem forall2_map_self {α : Type} (r : α → α → Prop) (f : α → α) (l : List α)
    (h : ∀ x ∈ l, r x (f x)) : List.Forall₂ r l (l.map f) := by
  induction l with
  | nil => exact List.Forall₂.nil
  | cons a t ih =>
    exact List.Forall₂.cons (h a (by simp)) (ih fun x hx => h x (by simp [hx]))

/- ── Claim theorems ── -/

/-- C5: `send(sessionId, command)` returns true if and only if the session's
transport exists and is OPEN (in which case the frame is handed to the
transport, i.e. appended to the sent log of that socket); it returns false
otherwise, and a false-returning call leaves the whole state unchanged — in
particular nothing is buffered or queued. -/
theorem c5_send_true_iff_open (st : AppState) (localId : String) (f : OutFrame) :
    ((send st localId f).1 = true ↔
      ∃ sid, alGet st.sockets localId = some sid ∧ alGet st.readyStates sid = some wsOpen) ∧
    ((send st localId f).1 = true →
      ∃ sid, alGet st.sockets localId = some sid ∧
        (send st localId f).2 = { st with sentLog := st.sentLog ++ [(sid, f)] }) ∧
    ((send st localId f).1 = false → (send st localId f).2 = st) := by
  unfold send
  cases hs : alGet st.sockets localId with
  | none => simp
  | some sid =>
    by_cases hr : alGet st.readyStates sid = some wsOpen
    · simp [hr]
    · simp [hr]

/-- Witness for C5 at a closed socket: send returns false and mutates
nothing. -/
theorem c5_send_true_iff_open_wit :
    (send stClosed "s1" .cancelCmd).1 = false ∧
    (send stClosed "s1" .cancelCmd).2 = stClosed :=
  ⟨by decide, (c5_send_true_iff_open stClosed "s1" .cancelCmd).2.2 (by decide)⟩

/-- C6: `connect(session)` is a no-op when the session already has a socket
whose readyState is CONNECTING or OPEN: the returned state is exactly the
input state (no new transport, transport map unchanged, status unchanged). -/
theorem c6_connect_idempotent (st : AppState) (sess : Session) (sid rs : Nat)
    (hs : alGet st.sockets sess.id = some sid)
    (hr : alGet st.readyStates sid = some rs)
    (hrs : rs ≤ wsOpen) :
    connect st sess = st := by
  simp [connect, hs, hr, hrs]

/-- Witness for C6: connecting `sessA` in `stA` (socket 5 is OPEN) changes
nothing. -/
theorem c6_connect_idempotent_wit :
    alGet stA.sockets sessA.id = some 5 ∧ alGet stA.readyStates 5 = some 1 ∧
    (1 : Nat) ≤ wsOpen ∧ connect stA sessA = stA :=
  ⟨by decide, by decide, by decide,
    c6_connect_idempotent stA sessA 5 1 (by decide) (by decide) (by decide)⟩

/-- C7: `disconnect` on a session holding a transport, followed by the
close event that `ws.close()` guarantees, always drives the session to
status `disconnected` with its remote session id cleared, and the transport
handle is discarded from the socket map — regardless of the socket's
readyState when the best-effort `disconnect` frame was attempted (send
failures are swallowed and delivery is not required). -/
theorem c7_disconnect_always_disconnects (st : AppState) (localId : String) (sid : Nat)
    (hs : alGet st.sockets localId = some sid) :
    alGet (oncloseEv (disconnect st localId) localId sid).sockets localId = none ∧
    ∀ s' ∈ (oncloseEv (disconnect st localId) localId sid).sessions,
      s'.id = localId → s'.status = .disconnected ∧ s'.sessionId = none := by
  constructor
  · exact alGet_alErase_self _ localId
  · intro s' hmem hid
    unfold oncloseEv AppState.setSession at hmem
    rcases setSessionList_mem_cases _ localId _ s' hmem with ⟨a, _, _, heq⟩ | ⟨_, hne⟩
    · rw [heq]
      exact ⟨rfl, rfl⟩
    · exact absurd hid hne

/-- Witness for C7 on `stA` (socket 5 is live). -/
theorem c7_disconnect_always_disconnects_wit :
    alGet (oncloseEv (disconnect stA "s1") "s1" 5).sockets "s1" = none ∧
    ({ sessA with status := .disconnected, sessionId := none } : Session).status =
      .disconnected ∧
    ({ sessA with status := .disconnected, sessionId := none } : Session).sessionId = none :=
  ⟨(c7_disconnect_always_disconnects stA "s1" 5 (by decide)).1,
   (c7_disconnect_always_disconnects stA "s1" 5 (by decide)).2
     { sessA with status := .disconnected, sessionId := none } (by decide) (by decide)⟩

/-- C10: at most one permission request is displayed at a time (the model's
`pendingPermission` is an `Option`, mirroring the single React state slot),
and a `permission_request` frame unconditionally replaces whatever request
was displayed with the new one; the replaced request is dropped without any
`permission_response` frame being sent (the sent log is unchanged). -/
theorem c10_permission_request_replaces (st : AppState) (localId : String)
    (p : PermissionRequest) (sockId : Nat) :
    (handleMessage st localId (.permissionRequestMsg p) sockId).pendingPermission =
      some ⟨p, sockId⟩ ∧
    (handleMessage st localId (.permissionRequestMsg p) sockId).sentLog = st.sentLog := by
  constructor <;> rfl

/-- C8: an inbound `error` frame appends exactly one system-role message to
the addressed session and leaves everything else unchanged: the session's
other fields (status, remote session id, pre-existing messages) are intact,
sessions with a different id are untouched, and no other state component
(pending permission, sockets, ready states, aggregator maps, sent log)
changes. -/
theorem c8_error_appends_system_message (st : AppState) (localId : String) (sockId : Nat)
    (message : String) (sess : Session)
    (hfind : findSession st localId = some sess) :
    findSession (handleMessage st localId (.errorMsg message) sockId) localId =
      some { sess with messages := sess.messages ++ [errMsgOf st.nextId message] } ∧
    (∀ s' ∈ (handleMessage st localId (.errorMsg message) sockId).sessions,
      s'.id ≠ localId → s' ∈ st.sessions) ∧
    (handleMessage st localId (.errorMsg message) sockId).pendingPermission =
      st.pendingPermission ∧
    (handleMessage st localId (.errorMsg message) sockId).sockets = st.sockets ∧
    (handleMessage st localId (.errorMsg message) sockId).readyStates = st.readyStates ∧
    (handleMessage st localId (.errorMsg message) sockId).thinkingIds = st.thinkingIds ∧
    (handleMessage st localId (.errorMsg message) sockId).streamingIds = st.streamingIds ∧
    (handleMessage st localId (.errorMsg message) sockId).sentLog = st.sentLog := by
  refine ⟨?_, ?_, rfl, rfl, rfl, rfl, rfl, rfl⟩
  · show findSession (AppState.addMessage _ localId _) localId = _
    rw [findSession_addMessage]
    have : findSession { st with nextId := st.nextId + 1 } localId = some sess := hfind
    rw [this]
    rfl
  · intro s' hmem hne
    unfold handleMessage AppState.addMessage at hmem
    simp only [addMessageList_eq_set] at hmem
    exact mem_setSessionList_of_ne st.sessions localId
      (fun s => { s with messages := s.messages ++ [errMsgOf st.nextId message] })
      (fun s => rfl) s' hmem hne

/-- Witness for C8 on `stA`. -/
theorem c8_error_appends_system_message_wit :
    findSession (handleMessage stA "s1" (.errorMsg "boom") 5) "s1" =
      some { sessA with messages := sessA.messages ++ [errMsgOf stA.nextId "boom"] } ∧
    (handleMessage stA "s1" (.errorMsg "boom") 5).sentLog = stA.sentLog :=
  ⟨(c8_error_appends_system_message stA "s1" 5 "boom" sessA (by decide)).1,
   (c8_error_appends_system_message stA "s1" 5 "boom" sessA (by decide)).2.2.2.2.2.2.2⟩

/-- C3 counterexample: in `stA` the session is connected with remote id r1;
a transport error event sets status to `error` but does NOT clear the remote
session id, so `remoteSessionId` is defined while status is `error` —
refuting the claimed invariant for the error transition. -/
theorem c3_error_keeps_remote_id_cex :
    (onerrorEv stA "s1").sessions = [{ sessA with status := .error }] ∧
    ({ sessA with status := .error } : Session).sessionId = some "r1" ∧
    ({ sessA with status := .error } : Session).status ≠ .connected := by
  refine ⟨by decide, by decide, by decide⟩

/-- C3 amended: the remote session id is cleared (and status driven to
`disconnected`) on every transition to `disconnected` — transport close and
an inbound `status` frame with connected = false; transitions to `error`
(onerror) or `connecting` (reconnect over a dead socket) do not clear it. -/
theorem c3_remote_id_cleared_on_disconnect (st : AppState) (localId : String) (sockId : Nat)
    (agentInfo : Option AgentInfo) :
    (∀ s' ∈ (oncloseEv st localId sockId).sessions,
      s'.id = localId → s'.status = .disconnected ∧ s'.sessionId = none) ∧
    (∀ s' ∈ (handleMessage st localId (.statusMsg false agentInfo) sockId).sessions,
      s'.id = localId → s'.status = .disconnected ∧ s'.sessionId = none) := by
  constructor
  · intro s' hmem hid
    unfold oncloseEv AppState.setSession at hmem
    rcases setSessionList_mem_cases _ localId _ s' hmem with ⟨a, _, _, heq⟩ | ⟨_, hne⟩
    · rw [heq]
      exact ⟨rfl, rfl⟩
    · exact absurd hid hne
  · intro s' hmem hid
    have hmem' : s' ∈ setSessionList localId
        (fun s => { s with status := .disconnected, sessionId := none }) st.sessions := by
      simpa [handleMessage, AppState.setSession] using hmem
    rcases setSessionList_mem_cases _ localId _ s' hmem' with ⟨a, _, _, heq⟩ | ⟨_, hne⟩
    · rw [heq]
      exact ⟨rfl, rfl⟩
    · exact absurd hid hne

/-- Witness for C3 amended: the close event on `stA` leaves the session
disconnected with no remote id. -/
theorem c3_remote_id_cleared_on_disconnect_wit :
    ({ sessA with status := .disconnected, sessionId := none } : Session).status =
      .disconnected ∧
    ({ sessA with status := .disconnected, sessionId := none } : Session).sessionId = none :=
  (c3_remote_id_cleared_on_disconnect stA "s1" 5 none).1
    { sessA with status := .disconnected, sessionId := none } (by decide) (by decide)

/-- C4 counterexample: `stC4` is in the Streaming state (streaming message
id 0, no thinking placeholder).  A `thinking_start` update is NOT a no-op
there: it appends a fresh thinking placeholder message — refuting the claim
for the Streaming case. -/
theorem c4_thinking_start_streaming_cex :
    (handleUpdates stC4 "s1" [thinkingStartUpd]).sessions =
      [{ sessC4 with messages := [m0C4, thinkMsg 1] }] ∧
    (thinkMsg 1).isThinking = true := by
  refine ⟨by decide, by decide⟩

theorem handleUpdates_single (st : AppState) (lid : String) (u : SessionUpdate) :
    handleUpdates st lid [u] = handleUpdate1 st lid u := rfl

theorem handleUpdates_pair (st : AppState) (lid : String) (u v : SessionUpdate) :
    handleUpdates st lid [u, v] = handleUpdate1 (handleUpdate1 st lid u) lid v := rfl

theorem handleUpdate1_thinking_some (st : AppState) (lid : String) (tid : Nat)
    (h : alGet st.thinkingIds lid = some tid) :
    handleUpdate1 st lid thinkingStartUpd = st := by
  simp [handleUpdate1, thinkingStartUpd, h]

theorem handleUpdate1_thinking_none (st : AppState) (lid : String)
    (h : alGet st.thinkingIds lid = none) :
    handleUpdate1 st lid thinkingStartUpd =
      AppState.addMessage
        { st with thinkingIds := alSet st.thinkingIds lid st.nextId, nextId := st.nextId + 1 }
        lid (thinkMsg st.nextId) := by
  simp [handleUpdate1, thinkingStartUpd, h, thinkMsg]

/-- C4 amended: a `thinking_start` received while the aggregator is in the
Thinking state is a no-op, and two consecutive `thinking_start` updates with
no intervening delta produce exactly one placeholder message; the no-op
guarantee does NOT extend to the Streaming state (the code only checks the
thinking map), where a `thinking_start` creates a fresh placeholder — see
the counterexample. -/
theorem c4_thinking_start_idempotent :
    (∀ (st : AppState) (localId : String) (tid : Nat),
      alGet st.thinkingIds localId = some tid →
      handleUpdates st localId [thinkingStartUpd] = st) ∧
    (∀ (st : AppState) (localId : String) (sess : Session),
      alGet st.thinkingIds localId = none →
      findSession st localId = some sess →
      handleUpdates st localId [thinkingStartUpd, thinkingStartUpd] =
        handleUpdates st localId [thinkingStartUpd] ∧
      findSession (handleUpdates st localId [thinkingStartUpd, thinkingStartUpd]) localId =
        some { sess with messages := sess.messages ++ [thinkMsg st.nextId] }) := by
  constructor
  · intro st localId tid h
    rw [handleUpdates_single]
    exact handleUpdate1_thinking_some st localId tid h
  · intro st localId sess hth hfind
    have h1 : handleUpdate1 st localId thinkingStartUpd =
        AppState.addMessage
          { st with thinkingIds := alSet st.thinkingIds localId st.nextId
                    nextId := st.nextId + 1 }
          localId (thinkMsg st.nextId) := handleUpdate1_thinking_none st localId hth
    have hth1 : alGet (handleUpdate1 st localId thinkingStartUpd).thinkingIds localId =
        some st.nextId := by
      rw [h1]
      exact alGet_alSet_self st.thinkingIds localId st.nextId
    have hpair : handleUpdates st localId [thinkingStartUpd, thinkingStartUpd] =
        handleUpdates st localId [thinkingStartUpd] := by
      rw [handleUpdates_pair, handleUpdates_single]
      exact handleUpdate1_thinking_some _ localId st.nextId hth1
    refine ⟨hpair, ?_⟩
    rw [hpair, handleUpdates_single, h1]
    rw [findSession_addMessage]
    have : findSession { st with thinkingIds := alSet st.thinkingIds localId st.nextId
                                 nextId := st.nextId + 1 } localId = some sess := hfind
    rw [this]
    rfl

/-- Witness for C4 amended, instantiated on the Idle fixture `stIdle`. -/
theorem c4_thinking_start_idempotent_wit :
    handleUpdates (handleUpdates stIdle "s1" [thinkingStartUpd]) "s1" [thinkingStartUpd] =
      handleUpdates stIdle "s1" [thinkingStartUpd] ∧
    handleUpdates stIdle "s1" [thinkingStartUpd, thinkingStartUpd] =
      handleUpdates stIdle "s1" [thinkingStartUpd] ∧
    findSession (handleUpdates stIdle "s1" [thinkingStartUpd, thinkingStartUpd]) "s1" =
      some { sessA with messages := sessA.messages ++ [thinkMsg stIdle.nextId] } :=
  ⟨c4_thinking_start_idempotent.1 (handleUpdates stIdle "s1" [thinkingStartUpd]) "s1" 3
      (by decide),
   (c4_thinking_start_idempotent.2 stIdle "s1" sessA (by decide) (by decide)).1,
   (c4_thinking_start_idempotent.2 stIdle "s1" sessA (by decide) (by decide)).2⟩

theorem sockSend_sessions (st : AppState) (k : Nat) (f : OutFrame) :
    (sockSend st k f).sessions = st.sessions := by
  unfold sockSend
  split <;> rfl

theorem denyRel_denyUpd (m : ChatMessage) : denyRel m (denyUpd m) := by
  constructor
  · intro tr htr hst
    simp [denyUpd, htr, hst]
  · intro hnp
    unfold denyUpd
    cases htr : m.toolResult with
    | none => rfl
    | some tr =>
      have hne : ¬ tr.status = .pending := fun h => hnp ⟨tr, htr, h⟩
      simp [hne]

theorem allowRel_allowUpd (title : String) (m : ChatMessage) :
    allowRel title m (allowUpd title m) := by
  constructor
  · intro tr tc htr hst htc htitle
    simp [allowUpd, htr, htc, hst, htitle]
  · intro hn
    cases htr : m.toolResult with
    | none => cases htc : m.toolCall <;> simp [allowUpd, htr, htc]
    | some tr =>
      cases htc : m.toolCall with
      | none => simp [allowUpd, htr, htc]
      | some tc =>
        have hcond : ¬ (tr.status = .pending ∧ tc.title = title) := by
          rintro ⟨h1, h2⟩
          exact hn ⟨⟨tr, htr, h1⟩, ⟨tc, htc, h2⟩⟩
        simp [allowUpd, htr, htc, hcond]

/-- C2 counterexample: in `stC2` the displayed request is `reqC2` (title
"Read file") and the session holds two pending tool messages: `mReq`
(created for the request) and `mOther` (an unrelated pending message with a
different title).  Resolving with deny flips BOTH to denied, so the claim
that no other message's toolResult.status changes is false. -/
theorem c2_resolve_touches_other_messages_cex :
    (handlePermissionDeny stC2).sessions =
      [{ sessC2 with messages :=
          [{ mReq with toolResult := some ⟨.denied, none⟩ },
           { mOther with toolResult := some ⟨.denied, none⟩ }] }] ∧
    mOther.toolResult = some ⟨.pending, none⟩ := by
  refine ⟨by decide, by decide⟩

/-- C2 amended: resolving the displayed request sends exactly one
`permission_response` frame carrying the original requestId and the decision
over the originating (open) connection and clears the displayed request; the
status update, however, is not limited to the message created for the
request: allow updates every pending tool message whose toolCall title
equals the request's title (in every session), deny updates every pending
tool message (in every session).  In particular a pending message with the
request's title — such as the one created for the request — is flipped. -/
theorem c2_resolve_frame_and_update (st : AppState) (pp : PendingPermission)
    (hpp : st.pendingPermission = some pp)
    (hopen : alGet st.readyStates pp.sockId = some wsOpen) :
    (handlePermissionAllow st).sentLog =
      st.sentLog ++ [(pp.sockId, .permissionResponse pp.request.requestId .allow)] ∧
    (handlePermissionAllow st).pendingPermission = none ∧
    (handlePermissionDeny st).sentLog =
      st.sentLog ++ [(pp.sockId, .permissionResponse pp.request.requestId .deny)] ∧
    (handlePermissionDeny st).pendingPermission = none ∧
    (∀ s ∈ st.sessions, ∀ m ∈ s.messages, ∀ tr tc,
      m.toolResult = some tr → tr.status = .pending → m.toolCall = some tc →
      tc.title = pp.request.toolCall.title →
      ∃ s' ∈ (handlePermissionAllow st).sessions, s'.id = s.id ∧
        { m with toolResult := some { tr with status := .allowed } } ∈ s'.messages) ∧
    (∀ s ∈ st.sessions, ∀ m ∈ s.messages, ∀ tr,
      m.toolResult = some tr → tr.status = .pending →
      ∃ s' ∈ (handlePermissionDeny st).sessions, s'.id = s.id ∧
        { m with toolResult := some { tr with status := .denied } } ∈ s'.messages) := by
  have hallow : handlePermissionAllow st =
      { st with
        sessions := st.sessions.map fun s =>
          { s with messages := s.messages.map (allowUpd pp.request.toolCall.title) }
        pendingPermission := none
        sentLog := st.sentLog ++ [(pp.sockId, .permissionResponse pp.request.requestId .allow)] } := by
    simp [handlePermissionAllow, sockSend, hpp, hopen]
  have hdeny : handlePermissionDeny st =
      { st with
        sessions := st.sessions.map fun s => { s with messages := s.messages.map denyUpd }
        pendingPermission := none
        sentLog := st.sentLog ++ [(pp.sockId, .permissionResponse pp.request.requestId .deny)] } := by
    simp [handlePermissionDeny, sockSend, hpp, hopen]
  refine ⟨by rw [hallow], by rw [hallow], by rw [hdeny], by rw [hdeny], ?_, ?_⟩
  · intro s hs m hm tr tc htr hst htc htitle
    refine ⟨{ s with messages := s.messages.map (allowUpd pp.request.toolCall.title) }, ?_, rfl, ?_⟩
    · rw [hallow]
      exact List.mem_map_of_mem _ hs
    · have hupd : allowUpd pp.request.toolCall.title m =
          { m with toolResult := some { tr with status := .allowed } } := by
        simp [allowUpd, htr, htc, hst, htitle]
      rw [← hupd]
      exact List.mem_map_of_mem _ hm
  · intro s hs m hm tr htr hst
    refine ⟨{ s with messages := s.messages.map denyUpd }, ?_, rfl, ?_⟩
    · rw [hdeny]
      exact List.mem_map_of_mem _ hs
    · have hupd : denyUpd m = { m with toolResult := some { tr with status := .denied } } := by
        simp [denyUpd, htr, hst]
      rw [← hupd]
      exact List.mem_map_of_mem _ hm

/-- Witness for C2 amended at `stC2` (socket 5 is OPEN). -/
theorem c2_resolve_frame_and_update_wit :
    (handlePermissionAllow stC2).sentLog =
      stC2.sentLog ++ [(5, .permissionResponse "rq1" .allow)] ∧
    (handlePermissionAllow stC2).pendingPermission = none ∧
    (handlePermissionDeny stC2).sentLog =
      stC2.sentLog ++ [(5, .permissionResponse "rq1" .deny)] ∧
    (handlePermissionDeny stC2).pendingPermission = none :=
  ⟨(c2_resolve_frame_and_update stC2 ⟨reqC2, 5⟩ (by decide) (by decide)).1,
   (c2_resolve_frame_and_update stC2 ⟨reqC2, 5⟩ (by decide) (by decide)).2.1,
   (c2_resolve_frame_and_update stC2 ⟨reqC2, 5⟩ (by decide) (by decide)).2.2.1,
   (c2_resolve_frame_and_update stC2 ⟨reqC2, 5⟩ (by decide) (by decide)).2.2.2.1⟩

/-- C9: for a deny resolution every pending tool message in every session is
set to denied (not only the one created for the displayed request, and not
only in the originating session); for an allow resolution every pending tool
message whose toolCall title equals the displayed request's title — matching
by title text, not by requestId — is set to allowed; all other messages and
the sessions' identity fields are untouched. -/
theorem c9_resolution_updates_all_pending (st : AppState) (pp : PendingPermission)
    (hpp : st.pendingPermission = some pp) :
    List.Forall₂ (sessRel denyRel) st.sessions (handlePermissionDeny st).sessions ∧
    List.Forall₂ (sessRel (allowRel pp.request.toolCall.title)) st.sessions
      (handlePermissionAllow st).sessions := by
  have hd : (handlePermissionDeny st).sessions =
      st.sessions.map fun s => { s with messages := s.messages.map denyUpd } := by
    simp only [handlePermissionDeny, hpp]
    rw [sockSend_sessions]
  have ha : (handlePermissionAllow st).sessions =
      st.sessions.map fun s =>
        { s with messages := s.messages.map (allowUpd pp.request.toolCall.title) } := by
    simp only [handlePermissionAllow, hpp]
    rw [sockSend_sessions]
  constructor
  · rw [hd]
    apply forall2_map_self
    intro s _
    refine ⟨rfl, rfl, rfl, ?_⟩
    apply forall2_map_self
    intro m _
    exact denyRel_denyUpd m
  · rw [ha]
    apply forall2_map_self
    intro s _
    refine ⟨rfl, rfl, rfl, ?_⟩
    apply forall2_map_self
    intro m _
    exact allowRel_allowUpd pp.request.toolCall.title m

/-- Witness for C9 at `stC2`. -/
theorem c9_resolution_updates_all_pending_wit :
    List.Forall₂ (sessRel denyRel) stC2.sessions (handlePermissionDeny stC2).sessions ∧
    List.Forall₂ (sessRel (allowRel reqC2.toolCall.title)) stC2.sessions
      (handlePermissionAllow stC2).sessions :=
  c9_resolution_updates_all_pending stC2 ⟨reqC2, 5⟩ (by decide)

theorem handleMessage_single_update (st : AppState) (lid : String) (sock : Nat)
    (u : SessionUpdate) :
    handleMessage st lid (.sessionUpdateMsg [u]) sock = handleUpdate1 st lid u := rfl

theorem handleUpdate1_delta_idle (st : AppState) (lid : String) (d : String) (hd : ¬ d = "")
    (hth : alGet st.thinkingIds lid = none) (hstr : alGet st.streamingIds lid = none) :
    handleUpdate1 st lid (deltaUpd d) =
      AppState.addMessage
        { st with streamingIds := alSet st.streamingIds lid st.nextId
                  nextId := st.nextId + 1 }
        lid (streamMsg st.nextId d) := by
  simp [handleUpdate1, deltaUpd, jsOrS, hd, hth, hstr, streamMsg]

theorem handleUpdate1_delta_streaming (st : AppState) (lid : String) (d : String) (k : Nat)
    (hd : ¬ d = "") (hth : alGet st.thinkingIds lid = none)
    (hstr : alGet st.streamingIds lid = some k) :
    handleUpdate1 st lid (deltaUpd d) =
      AppState.setSession st lid (fun s =>
        { s with messages := s.messages.map fun m =>
            if m.id = k then { m with content := m.content ++ d } else m }) := by
  simp [handleUpdate1, deltaUpd, jsOrS, hd, hth, hstr]

theorem map_append_streaming (orig : List ChatMessage) (k : Nat) (c d : String)
    (hk : ∀ m ∈ orig, m.id ≠ k) :
    (orig ++ [streamMsg k c]).map
        (fun m => if m.id = k then { m with content := m.content ++ d } else m) =
      orig ++ [streamMsg k (c ++ d)] := by
  induction orig with
  | nil => simp [streamMsg]
  | cons a t ih =>
    have ha : a.id ≠ k := hk a (by simp)
    simp only [List.cons_append, List.map_cons, if_neg ha]
    rw [ih fun m hm => hk m (by simp [hm])]

theorem findSession_after_stream_step (st : AppState) (lid : String) (k : Nat) (c d : String)
    (base : Session) (orig : List ChatMessage) (hk : ∀ m ∈ orig, m.id ≠ k)
    (hfind : findSession st lid = some { base with messages := orig ++ [streamMsg k c] }) :
    findSession (AppState.setSession st lid (fun s =>
        { s with messages := s.messages.map fun m =>
            if m.id = k then { m with content := m.content ++ d } else m })) lid =
      some { base with messages := orig ++ [streamMsg k (c ++ d)] } := by
  rw [findSession_setSession st lid
    (fun s => { s with messages := s.messages.map fun m =>
        if m.id = k then { m with content := m.content ++ d } else m })
    (fun s => rfl)]
  rw [hfind]
  show some _ = some _
  congr 1
  show { base with
    messages := (orig ++ [streamMsg k c]).map fun m : ChatMessage =>
      if m.id = k then { m with content := m.content ++ d } else m } = _
  rw [map_append_streaming orig k c d hk]

theorem stream_fold (lid : String) (sock k : Nat) (base : Session) (orig : List ChatMessage)
    (hk : ∀ m ∈ orig, m.id ≠ k) (ds : List String) :
    ∀ (st : AppState) (c : String),
      (∀ x ∈ ds, ¬ x = "") →
      alGet st.thinkingIds lid = none →
      alGet st.streamingIds lid = some k →
      findSession st lid = some { base with messages := orig ++ [streamMsg k c] } →
      alGet (List.foldl (fun s x => handleMessage s lid (.sessionUpdateMsg [deltaUpd x]) sock)
          st ds).thinkingIds lid = none ∧
      findSession
          (List.foldl (fun s x => handleMessage s lid (.sessionUpdateMsg [deltaUpd x]) sock)
            st ds) lid =
        some { base with messages := orig ++ [streamMsg k (c ++ concatAll ds)] } := by
  induction ds with
  | nil =>
    intro st c _ hth _ hfind
    refine ⟨hth, ?_⟩
    simpa [concatAll] using hfind
  | cons x ds ih =>
    intro st c hne hth hstr hfind
    have hx : ¬ x = "" := hne x (by simp)
    simp only [List.foldl_cons]
    rw [handleMessage_single_update, handleUpdate1_delta_streaming st lid x k hx hth hstr]
    have hth1 : alGet (AppState.setSession st lid (fun s =>
        { s with messages := s.messages.map fun m =>
            if m.id = k then { m with content := m.content ++ x } else m })).thinkingIds lid =
        none := hth
    have hstr1 : alGet (AppState.setSession st lid (fun s =>
        { s with messages := s.messages.map fun m =>
            if m.id = k then { m with content := m.content ++ x } else m })).streamingIds lid =
        some k := hstr
    have hfind1 := findSession_after_stream_step st lid k c x base orig hk hfind
    have hrest := ih _ (c ++ x) (fun y hy => hne y (List.mem_cons_of_mem x hy))
      hth1 hstr1 hfind1
    rw [String.append_assoc] at hrest
    exact hrest

theorem findSession_promptComplete (st : AppState) (lid : String) (sock : Nat)
    (hth : alGet st.thinkingIds lid = none) :
    findSession (handleMessage st lid .promptComplete sock) lid = findSession st lid := by
  unfold handleMessage
  rw [hth]
  rfl

/-- C1: starting from the Idle aggregator state (no thinking placeholder and
no streaming target for the session, and — as Idle reachability implies — no
thinking-placeholder message in the list and all existing message ids below
the fresh-id counter), delivering a nonempty sequence of `session_update`
events each carrying one non-empty text delta for the session, followed by a
`prompt_complete`, leaves the session's message list equal to the original
list plus exactly one new assistant message whose content is the
concatenation of the deltas in order, and no message with isThinking = true
remains in the session. -/
theorem c1_deltas_accumulate_single_message (st : AppState) (lid : String) (sock : Nat)
    (sess : Session) (d : String) (ds : List String)
    (hne : ∀ x ∈ d :: ds, ¬ x = "")
    (hfind : findSession st lid = some sess)
    (hth : alGet st.thinkingIds lid = none)
    (hstr : alGet st.streamingIds lid = none)
    (hfresh : ∀ m ∈ sess.messages, m.id < st.nextId)
    (hnothink : ∀ m ∈ sess.messages, m.isThinking = false) :
    findSession
        (handleMessage
          (List.foldl (fun s x => handleMessage s lid (.sessionUpdateMsg [deltaUpd x]) sock)
            st (d :: ds))
          lid .promptComplete sock) lid =
      some { sess with messages :=
        sess.messages ++ [streamMsg st.nextId (concatAll (d :: ds))] } ∧
    ∀ m ∈ sess.messages ++ [streamMsg st.nextId (concatAll (d :: ds))],
      m.isThinking = false := by
  have hd : ¬ d = "" := hne d (by simp)
  have hk : ∀ m ∈ sess.messages, m.id ≠ st.nextId := fun m hm => Nat.ne_of_lt (hfresh m hm)
  have hth1 : alGet (AppState.addMessage
      { st with streamingIds := alSet st.streamingIds lid st.nextId
                nextId := st.nextId + 1 }
      lid (streamMsg st.nextId d)).thinkingIds lid = none := hth
  have hstr1 : alGet (AppState.addMessage
      { st with streamingIds := alSet st.streamingIds lid st.nextId
                nextId := st.nextId + 1 }
      lid (streamMsg st.nextId d)).streamingIds lid = some st.nextId :=
    alGet_alSet_self st.streamingIds lid st.nextId
  have hfind1 : findSession (AppState.addMessage
      { st with streamingIds := alSet st.streamingIds lid st.nextId
                nextId := st.nextId + 1 }
      lid (streamMsg st.nextId d)) lid =
      some { sess with messages := sess.messages ++ [streamMsg st.nextId d] } := by
    rw [findSession_addMessage]
    have h0 : findSession
        { st with streamingIds := alSet st.streamingIds lid st.nextId
                  nextId := st.nextId + 1 } lid = some sess := hfind
    rw [h0]
    rfl
  have hmain := stream_fold lid sock st.nextId sess sess.messages hk ds _ d
    (fun y hy => hne y (List.mem_cons_of_mem d hy)) hth1 hstr1 hfind1
  constructor
  · simp only [List.foldl_cons]
    rw [handleMessage_single_update, handleUpdate1_delta_idle st lid d hd hth hstr]
    rw [findSession_promptComplete _ lid sock hmain.1, hmain.2]
    rfl
  · intro m hm
    rcases List.mem_append.mp hm with h | h
    · exact hnothink m h
    · rw [List.mem_singleton.mp h]
      rfl

/-- Witness for C1 on the Idle fixture: deltas "Hel", "lo" then
prompt_complete yield one assistant message "Hello". -/
theorem c1_deltas_accumulate_single_message_wit :
    findSession
        (handleMessage
          (List.foldl (fun s x => handleMessage s "s1" (.sessionUpdateMsg [deltaUpd x]) 5)
            stIdle ("Hel" :: ["lo"]))
          "s1" .promptComplete 5) "s1" =
      some { sessA with messages :=
        sessA.messages ++ [streamMsg stIdle.nextId (concatAll ("Hel" :: ["lo"]))] } :=
  (c1_deltas_accumulate_single_message stIdle "s1" 5 sessA "Hel" ["lo"]
    (by decide) (by decide) (by decide) (by decide) (by decide) (by decide)).1
